import Mathlib

/-!
Verification of the face-tracking avatar demo (`src/main.js`).

The per-frame core of the program is: a detector result (head-pose matrices
plus named blendshape scores) is retargeted through a gain table into
morph-target weights, which are written into the matching influence slots of
the avatar's meshes, while the head-pose matrix is applied to the avatar's
scene node.  All numeric values are modelled as rationals; JavaScript `Map`
and object dictionaries are modelled as association lists; in-place mutation
is modelled by explicit state passing (each operation returns the new values
of everything the JavaScript code mutates).
-/

/-! ## Strings: JavaScript `String.prototype.includes` -/

/-- Substring occurrence on character lists: `pat` occurs contiguously in `s`.
Mirrors JavaScript `s.includes(pat)` (empty pattern always matches). -/
def hasSubstr (s pat : List Char) : Bool :=
  match s with
  | [] => pat.isEmpty
  | _ :: rest => pat.isPrefixOf s || hasSubstr rest pat

/-- JavaScript `name.includes(pat)`. -/
def jsIncludes (s pat : String) : Bool :=
  hasSubstr s.toList pat.toList

/-! ## The gain table (`BLENDSHAPE_GAIN`, src/main.js lines 233-240) -/

/-- The shape of the `BLENDSHAPE_GAIN` constant object.  Fields in source
order: mouth, jaw, tongue, eye, brow, default (spelt `dflt`). -/
structure GainTable where
  mouth : ℚ
  jaw : ℚ
  tongue : ℚ
  eye : ℚ
  brow : ℚ
  dflt : ℚ

/-- `BLENDSHAPE_GAIN = { mouth: 2.2, jaw: 2.2, tongue: 2.5, eye: 1.2,
brow: 1.2, default: 1 }`. -/
def BLENDSHAPE_GAIN : GainTable :=
  ⟨22 / 10, 22 / 10, 25 / 10, 12 / 10, 12 / 10, 1⟩

/-- The gain-selection chain inside `retarget` (src/main.js lines 248-253):
`let gain = BLENDSHAPE_GAIN.default; if (name.includes("mouth") ||
name.includes("Mouth")) gain = BLENDSHAPE_GAIN.mouth; else if ...`. -/
def gainOf (name : String) : ℚ :=
  if jsIncludes name "mouth" || jsIncludes name "Mouth" then BLENDSHAPE_GAIN.mouth
  else if jsIncludes name "jaw" || jsIncludes name "Jaw" then BLENDSHAPE_GAIN.jaw
  else if jsIncludes name "tongue" || jsIncludes name "Tongue" then BLENDSHAPE_GAIN.tongue
  else if jsIncludes name "eye" || jsIncludes name "Eye" then BLENDSHAPE_GAIN.eye
  else if jsIncludes name "brow" || jsIncludes name "Brow" then BLENDSHAPE_GAIN.brow
  else BLENDSHAPE_GAIN.dflt

/-! ## Detector output: blendshape categories -/

/-- One named expression score as produced by the detector
(`categories[i]` with `.categoryName` and `.score`). -/
structure Category where
  categoryName : String
  score : ℚ
deriving DecidableEq

/-- One detected face's blendshape record (`faceBlendshapes[i]`), exposing
its `.categories` list. -/
structure FaceBlendshapes where
  categories : List Category
deriving DecidableEq

/-! ## JavaScript `Map` with string keys, as an association list -/

/-- The weight mapping produced by `retarget` (a JS `Map<string, number>`),
modelled as an insertion-ordered association list with unique keys. -/
abbrev Coefs := List (String × ℚ)

/-- JavaScript `map.set(k, v)`: overwrite the value at `k` keeping its
insertion position if `k` is present, otherwise append `(k, v)`. -/
def mapSet (m : Coefs) (k : String) (v : ℚ) : Coefs :=
  if m.any (fun p => p.1 == k) then
    m.map (fun p => if p.1 == k then (k, v) else p)
  else m ++ [(k, v)]

/-- JavaScript `map.get(k)` (as `Option`). -/
def mapGet (m : Coefs) (k : String) : Option ℚ :=
  m.lookup k

/-! ## `retarget` (src/main.js lines 242-258) -/

/-- The body of the `for (let i = 0; ...)` loop of `retarget`: read
`categories[i]`, select the gain, clamp, and `coefsMap.set(name, score)`. -/
def rStep (m : Coefs) (blendshape : Category) : Coefs :=
  mapSet m blendshape.categoryName
    (min 1 (blendshape.score * gainOf blendshape.categoryName))

/-- The `for (let i = 0; i < categories.length; ++i)` loop of `retarget`,
traversing the categories array in index order.  The array state is threaded
through and returned alongside the map, so that the theorem that the loop
returns it unchanged states that `retarget` never writes to its input. -/
def retargetGo (cats : List Category) (coefsMap : Coefs) :
    List Category × Coefs :=
  match cats with
  | [] => ([], coefsMap)
  | blendshape :: rest =>
      let r := retargetGo rest (rStep coefsMap blendshape)
      (blendshape :: r.1, r.2)

/-- `retarget(blendshapes)`: reads `blendshapes[0].categories` (a `none`
result models the exception JavaScript would raise on an empty list, which
every caller rules out by a length guard) and builds the coefficient map. -/
def retarget (blendshapes : List FaceBlendshapes) : Option Coefs :=
  match blendshapes with
  | [] => none
  | f :: _ => some (retargetGo f.categories []).2

example : retarget [⟨[⟨"mouthSmileLeft", 9 / 10⟩]⟩]
    = some [("mouthSmileLeft", min 1 ((9:ℚ) / 10 * (22 / 10)))] := rfl
example : min 1 ((9:ℚ) / 10 * (22 / 10)) = 1 := by norm_num
example : retarget [⟨[⟨"eyeBlinkLeft", 1 / 2⟩]⟩]
    = some [("eyeBlinkLeft", min 1 ((1:ℚ) / 2 * (12 / 10)))] := rfl
example : gainOf "MOUTH" = 1 := by decide
example : gainOf "jawOpen" = BLENDSHAPE_GAIN.jaw := rfl

/-! ## Meshes with morph targets -/

/-- The morph-target state of one mesh: the name-to-slot dictionary
(`morphTargetDictionary`, a JS object, so its keys are unique) and the
influence array (`morphTargetInfluences`).  Either may be absent
(`updateBlendshapes` re-checks both even though `init` only collects meshes
that have them). -/
structure Mesh where
  morphTargetDictionary : Option (List (String × Nat))
  morphTargetInfluences : Option (List ℚ)
deriving DecidableEq

/-- The inner loop body of `Avatar.updateBlendshapes` for one `(name, value)`
pair of the weight map: skip the pair unless `name` is a key of the mesh's
dictionary, otherwise `mesh.morphTargetInfluences[idx] = value` at the mapped
slot. -/
def writeStep (dict : List (String × Nat)) (acc : List ℚ) (nv : String × ℚ) :
    List ℚ :=
  match dict.lookup nv.1 with
  | some idx => acc.set idx nv.2
  | none => acc

/-- The effect of `Avatar.updateBlendshapes` on one mesh (src/main.js lines
141-148): if the mesh lacks a dictionary or an influence array it is left
alone; otherwise every pair of the weight map whose name is in the dictionary
is written to the mapped influence slot. -/
def applyWeightsToMesh (weights : Coefs) (mesh : Mesh) : Mesh :=
  match mesh.morphTargetDictionary, mesh.morphTargetInfluences with
  | some dict, some infl => ⟨some dict, some (weights.foldl (writeStep dict) infl)⟩
  | _, _ => mesh

/-! ## three.js matrices (external collaborator, modelled from its
documented semantics) -/

/-- three.js `Vector3` (named `Vec3` here; `Vector3` exists in Mathlib). -/
structure Vec3 where
  x : ℚ
  y : ℚ
  z : ℚ
deriving DecidableEq

/-- Element-wise worker for three.js `Matrix4.scale`: in the column-major
element array, entries 0-3 are multiplied by `x`, 4-7 by `y`, 8-11 by `z`,
and the last column (12-15) is untouched. -/
def scaleColumns (x y z : ℚ) : Nat → List ℚ → List ℚ
  | _, [] => []
  | i, e :: rest =>
      (if i < 4 then e * x else if i < 8 then e * y else if i < 12 then e * z else e)
        :: scaleColumns x y z (i + 1) rest

/-- three.js `Matrix4`: the column-major array of 16 elements. -/
structure Matrix4 where
  elements : List ℚ
deriving DecidableEq

/-- three.js `matrix.scale(v)`: post-multiplies the columns by `v` in place;
modelled as returning the new value of the matrix. -/
def Matrix4.scale (m : Matrix4) (v : Vec3) : Matrix4 :=
  ⟨scaleColumns v.x v.y v.z 0 m.elements⟩

/-- three.js `matrix.clone()`: a fresh copy, so subsequent operations on the
clone leave the original value untouched (value copy in the pure model). -/
def Matrix4.clone (m : Matrix4) : Matrix4 :=
  ⟨m.elements⟩

/-- three.js `new Matrix4().fromArray(data)`: the first 16 entries of `data`
become the element array. -/
def Matrix4.fromArray (data : List ℚ) : Matrix4 :=
  ⟨data.take 16⟩

/-- The mutable transform state of a three.js scene node (`gltf.scene` or the
overlay's plane mesh): its `matrixAutoUpdate` flag and local `matrix`. -/
structure SceneNode where
  matrixAutoUpdate : Bool
  matrix : Matrix4
deriving DecidableEq

/-! ## `Avatar` (src/main.js lines 94-170) -/

/-- The state of an `Avatar` that the per-frame path reads or writes: the
loaded renderable (`gltf` is `null` until the asset loads; we keep its
`scene` node) and the collected morph-target meshes. -/
structure Avatar where
  gltf : Option SceneNode
  morphTargetMeshes : List Mesh
deriving DecidableEq

/-- `Avatar.updateBlendshapes(blendshapes)`: writes the weight map into every
collected mesh (in-place mutation of influence arrays, modelled as the new
avatar state). -/
def Avatar.updateBlendshapes (a : Avatar) (blendshapes : Coefs) : Avatar :=
  ⟨a.gltf, a.morphTargetMeshes.map (applyWeightsToMesh blendshapes)⟩

/-- `Avatar.applyMatrix(matrix, matrixRetargetOptions = {})` (src/main.js
lines 151-157): read `scale` from the options with default `1`; if no asset
is loaded, return; otherwise scale the caller's matrix in place, set
`matrixAutoUpdate = false` and copy the scaled matrix into the scene node's
local matrix.  Returns the new avatar state and the final value of the
caller's matrix object (which the JavaScript code mutates). -/
def Avatar.applyMatrix (a : Avatar) (matrix : Matrix4) (opts : Option ℚ) :
    Avatar × Matrix4 :=
  let scale := opts.getD 1
  match a.gltf with
  | none => (a, matrix)
  | some _ =>
      let m := matrix.scale ⟨scale, scale, scale⟩
      (⟨some ⟨false, m⟩, a.morphTargetMeshes⟩, m)

/-! ## `FaceOverlay` (src/main.js lines 173-206) -/

/-- The state of a `FaceOverlay`: its plane mesh (absent until the texture
loads) and the scale stored at construction (`options.scale ?? 40`). -/
structure FaceOverlay where
  mesh : Option SceneNode
  scale : ℚ
deriving DecidableEq

/-- `FaceOverlay.applyMatrix(matrix, opts = {})` (src/main.js lines 199-205):
no-op until the mesh exists; otherwise clone the caller's matrix, scale the
clone, and install it on the plane mesh with `matrixAutoUpdate = false`.
Returns the new overlay state and the final value of the caller's matrix
(left untouched because of the clone). -/
def FaceOverlay.applyMatrix (f : FaceOverlay) (matrix : Matrix4) (opts : Option ℚ) :
    FaceOverlay × Matrix4 :=
  match f.mesh with
  | none => (f, matrix)
  | some _ =>
      let scale := opts.getD f.scale
      let m := (matrix.clone).scale ⟨scale, scale, scale⟩
      (⟨some ⟨false, m⟩, f.scale⟩, matrix)

/-! ## The per-frame path `detectFaceLandmarks` (src/main.js lines 214-230) -/

/-- One entry of `facialTransformationMatrixes`: the detector's flat `data`
array for a 4x4 head-pose matrix. -/
structure TransformationMatrix where
  data : List ℚ
deriving DecidableEq

/-- The detector result consumed by `detectFaceLandmarks`: optional lists of
head-pose matrices and per-face blendshapes ("absent" models an undefined
field). -/
structure FaceLandmarkerResult where
  facialTransformationMatrixes : Option (List TransformationMatrix)
  faceBlendshapes : Option (List FaceBlendshapes)
deriving DecidableEq

/-- The module-level mutable state touched by `detectFaceLandmarks`: the
guards for `faceLandmarker` and `video`, and the `avatar` and `faceOverlay`
handles. -/
structure WorldState where
  hasFaceLandmarker : Bool
  hasVideo : Bool
  avatar : Option Avatar
  faceOverlay : Option FaceOverlay
deriving DecidableEq

/-- `detectFaceLandmarks(time)` with the external `detectForVideo` call's
result passed in: if either guard fails, nothing happens.  Inside the
`transformationMatrices.length > 0` branch the pose is applied to the overlay
and the avatar, and only there, if `faceBlendshapes` is non-empty, the
retargeted weights are written to the avatar's meshes. -/
def detectFaceLandmarks (st : WorldState) (landmarks : FaceLandmarkerResult) :
    WorldState :=
  if !st.hasFaceLandmarker || !st.hasVideo then st
  else
    match landmarks.facialTransformationMatrixes with
    | some (tm0 :: _) =>
        let matrix := Matrix4.fromArray tm0.data
        let overlayRes : Option FaceOverlay × Matrix4 :=
          match st.faceOverlay with
          | some fo =>
              let r := FaceOverlay.applyMatrix fo matrix (some 40)
              (some r.1, r.2)
          | none => (none, matrix)
        match st.avatar with
        | some av =>
            let r := Avatar.applyMatrix av overlayRes.2 (some 40)
            let av2 :=
              match landmarks.faceBlendshapes with
              | some (f :: rest) =>
                  match retarget (f :: rest) with
                  | some coefs => Avatar.updateBlendshapes r.1 coefs
                  | none => r.1
              | _ => r.1
            ⟨st.hasFaceLandmarker, st.hasVideo, some av2, overlayRes.1⟩
        | none => ⟨st.hasFaceLandmarker, st.hasVideo, none, overlayRes.1⟩
    | _ => st

/-- The avatar's mesh list as seen from the module state (the prior influence
values the no-op claims talk about). -/
def avatarMeshes (st : WorldState) : Option (List Mesh) :=
  st.avatar.map Avatar.morphTargetMeshes

/-! ## Definitions following the spec's words, for refinement comparison -/

/-- Case-insensitive substring occurrence, the reading of the spec's
"case-insensitive substring match". -/
def jsIncludesCI (s pat : String) : Bool :=
  hasSubstr (s.toList.map Char.toLower) (pat.toList.map Char.toLower)

/-- The spec's wording of gain selection: case-insensitive substring match
against the ordered category list, first match wins, default 1.  Stated from
the spec for comparison with `gainOf`; the code is not case-insensitive. -/
def gainCaseInsensitiveSpec (name : String) : ℚ :=
  if jsIncludesCI name "mouth" then BLENDSHAPE_GAIN.mouth
  else if jsIncludesCI name "jaw" then BLENDSHAPE_GAIN.jaw
  else if jsIncludesCI name "tongue" then BLENDSHAPE_GAIN.tongue
  else if jsIncludesCI name "eye" then BLENDSHAPE_GAIN.eye
  else if jsIncludesCI name "brow" then BLENDSHAPE_GAIN.brow
  else BLENDSHAPE_GAIN.dflt

/-- The ordered rule list that the amended gain-selection claim speaks of:
each category is matched by its lowercase or leading-capital form, in the
source's priority order. -/
def gainRules : List (List String × ℚ) :=
  [(["mouth", "Mouth"], BLENDSHAPE_GAIN.mouth),
   (["jaw", "Jaw"], BLENDSHAPE_GAIN.jaw),
   (["tongue", "Tongue"], BLENDSHAPE_GAIN.tongue),
   (["eye", "Eye"], BLENDSHAPE_GAIN.eye),
   (["brow", "Brow"], BLENDSHAPE_GAIN.brow)]

/-- Gain selection as an ordered first-match over `gainRules`, with default
gain 1 when no rule matches. -/
def gainRuleOrdered (name : String) : ℚ :=
  match gainRules.find? (fun rule => rule.1.any (fun pat => jsIncludes name pat)) with
  | some rule => rule.2
  | none => BLENDSHAPE_GAIN.dflt

/-- Dictionary well-formedness for a mesh, as the loader guarantees: distinct
names map to distinct influence slots, and every slot index is within the
influence array. -/
def MeshWF (m : Mesh) : Prop :=
  match m.morphTargetDictionary, m.morphTargetInfluences with
  | some d, some l =>
      (∀ p ∈ d, ∀ q ∈ d, p.2 = q.2 → p.1 = q.1) ∧ ∀ p ∈ d, p.2 < l.length
  | _, _ => True

instance instDecMeshWF (m : Mesh) : Decidable (MeshWF m) :=
  match m with
  | ⟨some _, some _⟩ => (inferInstance : Decidable (_ ∧ _))
  | ⟨some _, none⟩ => isTrue trivial
  | ⟨none, _⟩ => isTrue trivial

/-! ## Concrete values used in witness statements -/

/-- The identity matrix in column-major element order. -/
def idMatrix4 : Matrix4 :=
  ⟨[1, 0, 0, 0, 0, 1, 0, 0, 0, 0, 1, 0, 0, 0, 0, 1]⟩

/-- The zero matrix. -/
def zeroMatrix4 : Matrix4 :=
  ⟨[0, 0, 0, 0, 0, 0, 0, 0, 0, 0, 0, 0, 0, 0, 0, 0]⟩

/-- A mesh exposing only the `jawOpen` morph target, at slot 0 of a
one-element influence array (the spec's worked example). -/
def meshW : Mesh :=
  ⟨some [("jawOpen", 0)], some [0]⟩

/-- An avatar whose only collected mesh is `meshW`. -/
def avatarW : Avatar :=
  ⟨none, [meshW]⟩

/-- The spec's example weight mapping
`{"jawOpen": 0.7, "eyeBlinkLeft": 0.4}`. -/
def weightsW : Coefs :=
  [("jawOpen", 7 / 10), ("eyeBlinkLeft", 2 / 5)]

/-- A module state with detector and video present, a loaded avatar carrying
`meshW`, and no overlay. -/
def stW : WorldState :=
  ⟨true, true, some ⟨some ⟨true, idMatrix4⟩, [meshW]⟩, none⟩

/-- A frame result with one pose matrix but an absent blendshape list. -/
def lmNoBlend : FaceLandmarkerResult :=
  ⟨some [⟨idMatrix4.elements⟩], none⟩

/-- A frame result with a non-empty blendshape list but an absent
transformation-matrix list. -/
def lmNoPose : FaceLandmarkerResult :=
  ⟨none, some [⟨[⟨"jawOpen", 1⟩]⟩]⟩

/-! ## Lemmas about the JS `Map` model -/

theorem lookup_eq_none_of_any_eq_false {m : Coefs} {k : String}
    (h : m.any (fun p => p.1 == k) = false) : m.lookup k = none := by
  rw [List.lookup_eq_none_iff]
  intro p hp
  have hne : ¬(p.1 == k) = true := by
    rw [List.any_eq_false] at h
    exact h p hp
  simp only [beq_iff_eq] at hne
  simp [bne_iff_ne, Ne.symm hne]

theorem lookup_map_overwrite (m : Coefs) (k : String) (v : ℚ) :
    (m.map (fun p => if p.1 == k then (k, v) else p)).lookup k
      = if m.any (fun p => p.1 == k) then some v else none := by
  induction m with
  | nil => rfl
  | cons p rest ih =>
      obtain ⟨pk, pv⟩ := p
      rw [List.map_cons, List.any_cons]
      by_cases hp : pk = k
      · have hb : ((pk, pv).1 == k) = true := by simpa using hp
        rw [if_pos hb, hb, Bool.true_or, if_pos rfl]
        exact List.lookup_cons_self
      · have hb : ((pk, pv).1 == k) = false := by simpa using hp
        rw [if_neg (by simp [hb]), hb, Bool.false_or, List.lookup_cons]
        have hk : (k == pk) = false := by simpa using Ne.symm hp
        simp only [hk]
        exact ih

theorem lookup_map_overwrite_ne {k2 k : String} (hne : k2 ≠ k) (m : Coefs)
    (v : ℚ) :
    (m.map (fun p => if p.1 == k then (k, v) else p)).lookup k2
      = m.lookup k2 := by
  induction m with
  | nil => rfl
  | cons p rest ih =>
      obtain ⟨pk, pv⟩ := p
      rw [List.map_cons]
      by_cases hp : pk = k
      · have hb : ((pk, pv).1 == k) = true := by simpa using hp
        rw [if_pos hb, List.lookup_cons, List.lookup_cons]
        have h1 : (k2 == k) = false := by simpa using hne
        have h2 : (k2 == pk) = false := by simpa using hp ▸ hne
        simp only [h1, h2]
        exact ih
      · have hb : ((pk, pv).1 == k) = false := by simpa using hp
        rw [if_neg (by simp [hb]), List.lookup_cons, List.lookup_cons]
        cases hk : k2 == pk
        · simp only []
          exact ih
        · rfl

theorem mapGet_mapSet_self (m : Coefs) (k : String) (v : ℚ) :
    (mapSet m k v).lookup k = some v := by
  unfold mapSet
  by_cases h : m.any (fun p => p.1 == k) = true
  · rw [if_pos h, lookup_map_overwrite, if_pos h]
  · rw [if_neg h, List.lookup_append,
      lookup_eq_none_of_any_eq_false (Bool.eq_false_iff.mpr h)]
    simp [List.lookup_cons]

theorem mapGet_mapSet_ne {k2 k : String} (m : Coefs) (v : ℚ) (hne : k2 ≠ k) :
    (mapSet m k v).lookup k2 = m.lookup k2 := by
  unfold mapSet
  by_cases h : m.any (fun p => p.1 == k) = true
  · rw [if_pos h]
    exact lookup_map_overwrite_ne hne m v
  · rw [if_neg h, List.lookup_append]
    have hsing : ([(k, v)] : Coefs).lookup k2 = none := by
      rw [List.lookup_cons]
      simp [show (k2 == k) = false by simpa using hne]
    rw [hsing, Option.or_none]

/-! ## Lemmas about the retarget loop -/

theorem retargetGo_snd (cats : List Category) (m : Coefs) :
    (retargetGo cats m).2 = cats.foldl rStep m := by
  induction cats generalizing m with
  | nil => rfl
  | cons c rest ih => simp [retargetGo, ih, List.foldl_cons]

theorem gainOf_ge_one (name : String) : 1 ≤ gainOf name := by
  simp only [gainOf, BLENDSHAPE_GAIN]
  split_ifs <;> norm_num

theorem fold_lookup_of_not_mem {l : List Category} {n : String}
    (h : ∀ c ∈ l, c.categoryName ≠ n) (m : Coefs) :
    (l.foldl rStep m).lookup n = m.lookup n := by
  induction l generalizing m with
  | nil => rfl
  | cons c rest ih =>
      rw [List.foldl_cons, ih (fun d hd => h d (List.mem_cons_of_mem c hd))]
      exact mapGet_mapSet_ne m _ (Ne.symm (h c (List.mem_cons_self c rest)))

theorem fold_lookup_mem {l : List Category}
    (hnodup : (l.map Category.categoryName).Nodup) {b : Category} (hb : b ∈ l)
    (m : Coefs) :
    (l.foldl rStep m).lookup b.categoryName
      = some (min 1 (b.score * gainOf b.categoryName)) := by
  induction l generalizing m with
  | nil => cases hb
  | cons c rest ih =>
      rw [List.foldl_cons]
      rcases List.mem_cons.mp hb with rfl | hb2
      · have hhead : b.categoryName ∉ rest.map Category.categoryName :=
          (List.nodup_cons.mp (by simpa using hnodup)).1
        have hnot : ∀ d ∈ rest, d.categoryName ≠ b.categoryName := by
          intro d hd he
          exact hhead (he ▸ List.mem_map_of_mem Category.categoryName hd)
        rw [fold_lookup_of_not_mem hnot]
        exact mapGet_mapSet_self m _ _
      · exact ih (List.Nodup.of_cons (by simpa using hnodup)) hb2 _

/-! ## Claims about `retarget` -/

/-- C1: for every expression score entry with name `n` and raw score
`r ∈ [0,1]` (entry names are unique per frame, as the detector guarantees),
`retarget` produces the weight `min 1 (r * gain n)` for `n`, and that weight
lies in `[0,1]`. -/
theorem retarget_weight_clamped (f : FaceBlendshapes) (rest : List FaceBlendshapes)
    (b : Category) (hmem : b ∈ f.categories)
    (hnodup : (f.categories.map Category.categoryName).Nodup)
    (h0 : 0 ≤ b.score) (_h1 : b.score ≤ 1) :
    ∃ coefs, retarget (f :: rest) = some coefs ∧
      mapGet coefs b.categoryName = some (min 1 (b.score * gainOf b.categoryName)) ∧
      0 ≤ min 1 (b.score * gainOf b.categoryName) ∧
      min 1 (b.score * gainOf b.categoryName) ≤ 1 := by
  refine ⟨(retargetGo f.categories []).2, rfl, ?_, ?_, min_le_left _ _⟩
  · rw [retargetGo_snd]
    exact fold_lookup_mem hnodup hmem []
  · refine le_min zero_le_one (mul_nonneg h0 ?_)
    exact le_trans zero_le_one (gainOf_ge_one b.categoryName)

/-- Witness for C1 at a concrete input: the entry `("jawOpen", 1)` of a
one-face frame gets weight `min 1 (1 * 2.2)`, inside `[0,1]`. -/
theorem retarget_weight_clamped_witness :
    (⟨"jawOpen", 1⟩ : Category) ∈ (⟨[⟨"jawOpen", 1⟩]⟩ : FaceBlendshapes).categories ∧
    (((⟨[⟨"jawOpen", 1⟩]⟩ : FaceBlendshapes)).categories.map
      Category.categoryName).Nodup ∧
    (0:ℚ) ≤ 1 ∧ (1:ℚ) ≤ 1 ∧
    ∃ coefs, retarget [⟨[⟨"jawOpen", 1⟩]⟩] = some coefs ∧
      mapGet coefs "jawOpen" = some (min 1 ((1:ℚ) * gainOf "jawOpen")) ∧
      0 ≤ min 1 ((1:ℚ) * gainOf "jawOpen") ∧
      min 1 ((1:ℚ) * gainOf "jawOpen") ≤ 1 :=
  ⟨List.mem_singleton.mpr rfl, by simp, zero_le_one, le_refl 1,
    retarget_weight_clamped ⟨[⟨"jawOpen", 1⟩]⟩ [] ⟨"jawOpen", 1⟩
      (List.mem_singleton.mpr rfl) (by simp) zero_le_one (le_refl 1)⟩

/-- C2 counterexample: the gain match is not case-insensitive.  For the name
`"MOUTH"` the claimed case-insensitive rule selects the mouth gain 2.2, so
the claimed weight for raw score 1/2 would be `min 1 (1/2 * 2.2) = 1`, but
the code leaves the default gain 1 and produces weight 1/2. -/
theorem gain_not_case_insensitive :
    gainOf "MOUTH" = 1 ∧
    gainCaseInsensitiveSpec "MOUTH" = BLENDSHAPE_GAIN.mouth ∧
    retarget [⟨[⟨"MOUTH", 1 / 2⟩]⟩] = some [("MOUTH", 1 / 2)] ∧
    min 1 ((1:ℚ) / 2 * gainCaseInsensitiveSpec "MOUTH") ≠ 1 / 2 := by
  refine ⟨by decide, rfl, ?_, ?_⟩
  · have h : retarget [⟨[⟨"MOUTH", 1 / 2⟩]⟩]
        = some [("MOUTH", min 1 ((1:ℚ) / 2 * 1))] := rfl
    rw [h]
    norm_num
  · have h : gainCaseInsensitiveSpec "MOUTH" = (22:ℚ) / 10 := rfl
    rw [h]
    norm_num [min_def]

/-- C2 amended: gain selection equals a first-match scan of the ordered rule
list (mouth, jaw, tongue, eye, brow), where each category is matched by its
lowercase or leading-capital spelling as a substring (not arbitrary case),
with default gain 1 when no rule matches. -/
theorem gain_eq_rule_ordered (name : String) :
    gainOf name = gainRuleOrdered name := by
  unfold gainOf gainRuleOrdered gainRules
  simp only [List.find?, List.any_cons, List.any_nil, Bool.or_false]
  cases jsIncludes name "mouth" <;> cases jsIncludes name "Mouth" <;>
    cases jsIncludes name "jaw" <;> cases jsIncludes name "Jaw" <;>
    cases jsIncludes name "tongue" <;> cases jsIncludes name "Tongue" <;>
    cases jsIncludes name "eye" <;> cases jsIncludes name "Eye" <;>
    cases jsIncludes name "brow" <;> cases jsIncludes name "Brow" <;> rfl

/-- C3: the three worked examples of the spec: `("mouthSmileLeft", 0.9)`
gives weight 1, `("eyeBlinkLeft", 0.5)` gives 0.6, and
`("unknownCategory", 0.3)` keeps 0.3 under the default gain. -/
theorem retarget_examples :
    retarget [⟨[⟨"mouthSmileLeft", 9 / 10⟩]⟩] = some [("mouthSmileLeft", 1)] ∧
    retarget [⟨[⟨"eyeBlinkLeft", 1 / 2⟩]⟩] = some [("eyeBlinkLeft", 3 / 5)] ∧
    retarget [⟨[⟨"unknownCategory", 3 / 10⟩]⟩]
      = some [("unknownCategory", 3 / 10)] := by
  refine ⟨?_, ?_, ?_⟩
  · have h : retarget [⟨[⟨"mouthSmileLeft", 9 / 10⟩]⟩]
        = some [("mouthSmileLeft", min 1 ((9:ℚ) / 10 * (22 / 10)))] := rfl
    rw [h]
    norm_num [min_def]
  · have h : retarget [⟨[⟨"eyeBlinkLeft", 1 / 2⟩]⟩]
        = some [("eyeBlinkLeft", min 1 ((1:ℚ) / 2 * (12 / 10)))] := rfl
    rw [h]
    norm_num [min_def]
  · have h : retarget [⟨[⟨"unknownCategory", 3 / 10⟩]⟩]
        = some [("unknownCategory", min 1 ((3:ℚ) / 10 * 1))] := rfl
    rw [h]
    norm_num [min_def]

/-- C7: the retarget loop only reads its input: threading the categories
array through the loop returns it unchanged (and the loop touches no other
state -- its translation is a pure function of the array and the map). -/
theorem retarget_pure (cats : List Category) (coefsMap : Coefs) :
    (retargetGo cats coefsMap).1 = cats := by
  induction cats generalizing coefsMap with
  | nil => rfl
  | cons c rest ih => simp [retargetGo, ih]

/-! ## Lemmas about `updateBlendshapes` -/

theorem lookup_mem {α β : Type} [BEq α] [LawfulBEq α] {l : List (α × β)} {a : α}
    {b : β} (h : l.lookup a = some b) : (a, b) ∈ l := by
  induction l with
  | nil => simp at h
  | cons p rest ih =>
      obtain ⟨pk, pv⟩ := p
      rw [List.lookup_cons] at h
      split at h
      next heq =>
        have h1 : a = pk := by simpa using heq
        have h2 : b = pv := by
          cases h
          rfl
        subst h1
        subst h2
        exact List.mem_cons_self _ _
      next => exact List.mem_cons_of_mem _ (ih h)

theorem writeStep_length (dict : List (String × Nat)) (infl : List ℚ)
    (nv : String × ℚ) : (writeStep dict infl nv).length = infl.length := by
  unfold writeStep
  cases dict.lookup nv.1 <;> simp

theorem writeFold_length (dict : List (String × Nat)) (weights : Coefs)
    (infl : List ℚ) :
    (weights.foldl (writeStep dict) infl).length = infl.length := by
  induction weights generalizing infl with
  | nil => rfl
  | cons nv rest ih =>
      rw [List.foldl_cons, ih]
      exact writeStep_length dict infl nv

theorem writeFold_untouched (dict : List (String × Nat)) {weights : Coefs}
    {j : Nat} (h : ∀ nv ∈ weights, dict.lookup nv.1 ≠ some j) (infl : List ℚ) :
    (weights.foldl (writeStep dict) infl)[j]? = infl[j]? := by
  induction weights generalizing infl with
  | nil => rfl
  | cons nv rest ih =>
      rw [List.foldl_cons,
        ih (fun q hq => h q (List.mem_cons_of_mem nv hq))]
      unfold writeStep
      cases hd : dict.lookup nv.1 with
      | none => rfl
      | some idx =>
          have hne : idx ≠ j := fun he => h nv (List.mem_cons_self nv rest) (he ▸ hd)
          exact List.getElem?_set_ne hne

theorem writeFold_written (dict : List (String × Nat)) (name : String) (v : ℚ)
    (j : Nat) (hd : dict.lookup name = some j) :
    ∀ (weights : Coefs) (infl : List ℚ),
      (weights.map Prod.fst).Nodup →
      weights.lookup name = some v →
      (∀ nv ∈ weights, dict.lookup nv.1 = some j → nv.1 = name) →
      j < infl.length →
      (weights.foldl (writeStep dict) infl)[j]? = some v := by
  intro weights
  induction weights with
  | nil =>
      intro infl _ hw
      simp at hw
  | cons nv rest ih =>
      intro infl hkeys hw hinj hj
      obtain ⟨nk, nv2⟩ := nv
      rw [List.foldl_cons]
      by_cases hk : name = nk
      · subst hk
        have hv : v = nv2 := by
          rw [List.lookup_cons_self] at hw
          cases hw
          rfl
        subst hv
        have hrest : ∀ q ∈ rest, dict.lookup q.1 ≠ some j := by
          intro q hq hqd
          have hqn : q.1 = name := hinj q (List.mem_cons_of_mem _ hq) hqd
          have hn : name ∉ rest.map Prod.fst :=
            (List.nodup_cons.mp (by simpa using hkeys)).1
          exact hn (hqn ▸ List.mem_map_of_mem Prod.fst hq)
        rw [writeFold_untouched dict hrest]
        unfold writeStep
        simp only [hd]
        exact List.getElem?_set_self hj
      · have hw2 : rest.lookup name = some v := by
          rw [List.lookup_cons] at hw
          have hnk : (name == nk) = false := by simpa using hk
          simpa [hnk] using hw
        have hkeys2 : (rest.map Prod.fst).Nodup :=
          (List.nodup_cons.mp (by simpa using hkeys)).2
        have hinj2 : ∀ q ∈ rest, dict.lookup q.1 = some j → q.1 = name :=
          fun q hq => hinj q (List.mem_cons_of_mem _ hq)
        have hlen := writeStep_length dict infl (nk, nv2)
        exact ih _ hkeys2 hw2 hinj2 (by rw [hlen]; exact hj)

/-- C4: `updateBlendshapes` rewrites, for each mesh exposing both a
morph-target dictionary and an influence array, exactly the slots whose
names occur in both the weight mapping and that mesh's dictionary, with the
mapped weight; every other slot (and every mesh lacking a dictionary or an
influence array) is left unchanged, the dictionary itself and the array
length are preserved, and names absent from a mesh's dictionary are skipped
without any failure (the function is total). -/
theorem updateBlendshapes_writes_exactly (a : Avatar) (weights : Coefs)
    (hkeys : (weights.map Prod.fst).Nodup)
    (hwf : ∀ m ∈ a.morphTargetMeshes, MeshWF m) :
    (Avatar.updateBlendshapes a weights).gltf = a.gltf ∧
    (Avatar.updateBlendshapes a weights).morphTargetMeshes
      = a.morphTargetMeshes.map (applyWeightsToMesh weights) ∧
    (∀ mesh ∈ a.morphTargetMeshes,
      (applyWeightsToMesh weights mesh).morphTargetDictionary
        = mesh.morphTargetDictionary) ∧
    (∀ mesh ∈ a.morphTargetMeshes,
      (mesh.morphTargetDictionary = none ∨ mesh.morphTargetInfluences = none) →
        applyWeightsToMesh weights mesh = mesh) ∧
    ∀ mesh ∈ a.morphTargetMeshes, ∀ dict infl,
      mesh.morphTargetDictionary = some dict →
      mesh.morphTargetInfluences = some infl →
      ∃ out, (applyWeightsToMesh weights mesh).morphTargetInfluences = some out ∧
        out.length = infl.length ∧
        (∀ name v j, dict.lookup name = some j → weights.lookup name = some v →
          out[j]? = some v) ∧
        (∀ j, (∀ nv ∈ weights, dict.lookup nv.1 ≠ some j) → out[j]? = infl[j]?) := by
  refine ⟨rfl, rfl, ?_, ?_, ?_⟩
  · intro mesh _
    obtain ⟨d, i⟩ := mesh
    cases d <;> cases i <;> rfl
  · intro mesh _ habsent
    obtain ⟨d, i⟩ := mesh
    rcases habsent with h | h
    · cases h
      rfl
    · cases h
      cases d <;> rfl
  · intro mesh hmesh dict infl hdict hinfl
    obtain ⟨d, i⟩ := mesh
    cases hdict
    cases hinfl
    have hwfm : MeshWF ⟨some dict, some infl⟩ := hwf _ hmesh
    obtain ⟨hinj0, hbound0⟩ := hwfm
    refine ⟨weights.foldl (writeStep dict) infl, rfl,
      writeFold_length dict weights infl, ?_, ?_⟩
    · intro name v j hdl hwl
      have hmemd : (name, j) ∈ dict := lookup_mem hdl
      have hj : j < infl.length := hbound0 (name, j) hmemd
      have hinj : ∀ nv ∈ weights, dict.lookup nv.1 = some j → nv.1 = name := by
        intro nv _ hnvd
        exact hinj0 (nv.1, j) (lookup_mem hnvd) (name, j) hmemd rfl
      exact writeFold_written dict name v j hdl weights infl hkeys hwl hinj hj
    · intro j hnone
      exact writeFold_untouched dict hnone infl

/-- Witness for C4 at the spec's worked example: a mesh whose dictionary is
`{"jawOpen": 0}` with weights `{"jawOpen": 0.7, "eyeBlinkLeft": 0.4}`; the
`jawOpen` slot is written and `eyeBlinkLeft` is skipped. -/
theorem updateBlendshapes_writes_exactly_witness :
    ((weightsW.map Prod.fst).Nodup ∧ ∀ m ∈ avatarW.morphTargetMeshes, MeshWF m) ∧
    ((Avatar.updateBlendshapes avatarW weightsW).gltf = avatarW.gltf ∧
    (Avatar.updateBlendshapes avatarW weightsW).morphTargetMeshes
      = avatarW.morphTargetMeshes.map (applyWeightsToMesh weightsW) ∧
    (∀ mesh ∈ avatarW.morphTargetMeshes,
      (applyWeightsToMesh weightsW mesh).morphTargetDictionary
        = mesh.morphTargetDictionary) ∧
    (∀ mesh ∈ avatarW.morphTargetMeshes,
      (mesh.morphTargetDictionary = none ∨ mesh.morphTargetInfluences = none) →
        applyWeightsToMesh weightsW mesh = mesh) ∧
    ∀ mesh ∈ avatarW.morphTargetMeshes, ∀ dict infl,
      mesh.morphTargetDictionary = some dict →
      mesh.morphTargetInfluences = some infl →
      ∃ out, (applyWeightsToMesh weightsW mesh).morphTargetInfluences = some out ∧
        out.length = infl.length ∧
        (∀ name v j, dict.lookup name = some j → weightsW.lookup name = some v →
          out[j]? = some v) ∧
        (∀ j, (∀ nv ∈ weightsW, dict.lookup nv.1 ≠ some j) → out[j]? = infl[j]?)) :=
  ⟨⟨by decide, by decide⟩,
    updateBlendshapes_writes_exactly avatarW weightsW (by decide) (by decide)⟩

/-! ## Lemmas about `Matrix4.scale` -/

theorem scaleColumns_getElem? (x y z : ℚ) (l : List ℚ) (i j : Nat) :
    (scaleColumns x y z i l)[j]?
      = (l[j]?).map (fun e =>
          if i + j < 4 then e * x else if i + j < 8 then e * y
          else if i + j < 12 then e * z else e) := by
  induction l generalizing i j with
  | nil => simp [scaleColumns]
  | cons e rest ih =>
      cases j with
      | zero => simp [scaleColumns]
      | succ j2 =>
          have harith : i + 1 + j2 = i + (j2 + 1) := by omega
          simp only [scaleColumns, List.getElem?_cons_succ]
          rw [ih (i + 1) j2, harith]

/-! ## Claims about `Avatar.applyMatrix` and `FaceOverlay.applyMatrix` -/

/-- C5: before the avatar asset has loaded (`this.gltf` is null),
`Avatar.applyMatrix` returns without touching the avatar state or the
caller's matrix, for every pose matrix and every option value (total
function: no error). -/
theorem applyMatrix_noop_unloaded (a : Avatar) (matrix : Matrix4)
    (opts : Option ℚ) (hg : a.gltf = none) :
    Avatar.applyMatrix a matrix opts = (a, matrix) := by
  unfold Avatar.applyMatrix
  rw [hg]

/-- Witness for C5: an unloaded avatar, the identity pose and scale 40. -/
theorem applyMatrix_noop_unloaded_witness :
    (⟨none, [meshW]⟩ : Avatar).gltf = none ∧
    Avatar.applyMatrix ⟨none, [meshW]⟩ idMatrix4 (some 40)
      = (⟨none, [meshW]⟩, idMatrix4) :=
  ⟨rfl, applyMatrix_noop_unloaded ⟨none, [meshW]⟩ idMatrix4 (some 40) rfl⟩

/-- C6 counterexample: `Avatar.applyMatrix` called without a scale option on
a loaded avatar stores the pose scaled by the default `1` (the identity pose
stays the identity), while the claimed default of 40 would have stored
`pose.scale(40)`, a different matrix. -/
theorem applyMatrix_default_scale_counterexample :
    (Avatar.applyMatrix ⟨some ⟨true, idMatrix4⟩, []⟩ idMatrix4 none).1
        = ⟨some ⟨false, idMatrix4⟩, []⟩ ∧
      idMatrix4.scale ⟨40, 40, 40⟩ ≠ idMatrix4 := by
  constructor
  · have h : (Avatar.applyMatrix ⟨some ⟨true, idMatrix4⟩, []⟩ idMatrix4 none).1
        = ⟨some ⟨false, idMatrix4.scale ⟨1, 1, 1⟩⟩, []⟩ := rfl
    rw [h]
    have h2 : idMatrix4.scale ⟨1, 1, 1⟩ = idMatrix4 := by
      simp only [Matrix4.scale, idMatrix4, scaleColumns, Matrix4.mk.injEq]
      norm_num
    rw [h2]
  · intro he
    have h3 := congrArg (fun m : Matrix4 => m.elements[0]?) he
    simp [Matrix4.scale, idMatrix4, scaleColumns] at h3

/-- C6 amended: on a loaded avatar, `Avatar.applyMatrix` disables automatic
transform recomputation (`matrixAutoUpdate := false`) and overwrites the
renderable's local matrix with the pose scaled uniformly by the scale
option, whose default is 1 (the per-frame caller passes 40 explicitly). -/
theorem applyMatrix_sets_transform (a : Avatar) (g : SceneNode)
    (matrix : Matrix4) (opts : Option ℚ) (hg : a.gltf = some g) :
    (Avatar.applyMatrix a matrix opts).1
      = ⟨some ⟨false, matrix.scale ⟨opts.getD 1, opts.getD 1, opts.getD 1⟩⟩,
          a.morphTargetMeshes⟩ := by
  unfold Avatar.applyMatrix
  rw [hg]

/-- Witness for C6 (amended) on a loaded avatar with no scale option. -/
theorem applyMatrix_sets_transform_witness :
    (⟨some ⟨true, idMatrix4⟩, [meshW]⟩ : Avatar).gltf = some ⟨true, idMatrix4⟩ ∧
    (Avatar.applyMatrix ⟨some ⟨true, idMatrix4⟩, [meshW]⟩ zeroMatrix4 none).1
      = ⟨some ⟨false, zeroMatrix4.scale ⟨(none : Option ℚ).getD 1,
          (none : Option ℚ).getD 1, (none : Option ℚ).getD 1⟩⟩, [meshW]⟩ :=
  ⟨rfl, applyMatrix_sets_transform ⟨some ⟨true, idMatrix4⟩, [meshW]⟩
    ⟨true, idMatrix4⟩ zeroMatrix4 none rfl⟩

/-- C10 counterexample: on a loaded avatar, calling `Avatar.applyMatrix`
with the zero pose matrix and scale 40 (which is not 1) leaves the caller's
matrix value equal to the one supplied: in-place scaling does not change the
zero matrix, so "differs whenever scale is not 1" fails. -/
theorem applyMatrix_mutation_counterexample :
    (40:ℚ) ≠ 1 ∧
    (Avatar.applyMatrix ⟨some ⟨true, idMatrix4⟩, []⟩ zeroMatrix4 (some 40)).2
      = zeroMatrix4 := by
  constructor
  · decide
  · have h : (Avatar.applyMatrix ⟨some ⟨true, idMatrix4⟩, []⟩ zeroMatrix4
        (some 40)).2 = zeroMatrix4.scale ⟨40, 40, 40⟩ := rfl
    rw [h]
    simp only [Matrix4.scale, zeroMatrix4, scaleColumns, Matrix4.mk.injEq]
    norm_num

/-- C10 amended: on a loaded avatar, `Avatar.applyMatrix` scales the
caller's matrix in place before copying it (the caller's object afterwards
holds `pose.scale(s)`), and it differs from the supplied value whenever the
scale is not 1 and the pose has a nonzero entry among its first twelve
(basis) elements; `FaceOverlay.applyMatrix` instead clones, leaving the
caller's matrix unchanged in every case. -/
theorem applyMatrix_aliasing (a : Avatar) (g : SceneNode) (matrix : Matrix4)
    (s : ℚ) (hg : a.gltf = some g) :
    (Avatar.applyMatrix a matrix (some s)).2 = matrix.scale ⟨s, s, s⟩ ∧
    (∀ f : FaceOverlay, ∀ opts : Option ℚ,
      (FaceOverlay.applyMatrix f matrix opts).2 = matrix) ∧
    ∀ i : Nat, ∀ e : ℚ, i < 12 → matrix.elements[i]? = some e → e ≠ 0 → s ≠ 1 →
      (Avatar.applyMatrix a matrix (some s)).2 ≠ matrix := by
  have h2 : (Avatar.applyMatrix a matrix (some s)).2 = matrix.scale ⟨s, s, s⟩ := by
    unfold Avatar.applyMatrix
    rw [hg]
    rfl
  refine ⟨h2, ?_, ?_⟩
  · intro f opts
    obtain ⟨fm, fs⟩ := f
    unfold FaceOverlay.applyMatrix
    cases fm <;> rfl
  · intro i e hi he hez hs1 heq
    rw [h2] at heq
    have h3 := congrArg (fun m : Matrix4 => m.elements[i]?) heq
    simp only [Matrix4.scale] at h3
    rw [scaleColumns_getElem?, he] at h3
    simp only [Option.map_some', Option.some.injEq] at h3
    have h5 : e * s = e := by
      split_ifs at h3 with c1 c2 c3
      · exact h3
      · exact h3
      · exact h3
      · exact absurd (by omega : 0 + i < 12) c3
    have h6 : e * (s - 1) = 0 := by
      have : e * s - e = 0 := by rw [h5]; ring
      calc e * (s - 1) = e * s - e := by ring
        _ = 0 := this
    rcases mul_eq_zero.mp h6 with h | h
    · exact hez h
    · exact hs1 (by linarith)

/-- Witness for C10 (amended): loaded avatar, identity pose, scale 40; the
caller's matrix afterwards is the scaled pose, the overlay leaves it alone,
and since element 0 of the identity is 1 and the scale is 40, the scaled
pose differs from the original. -/
theorem applyMatrix_aliasing_witness :
    (⟨some ⟨true, idMatrix4⟩, []⟩ : Avatar).gltf = some ⟨true, idMatrix4⟩ ∧
    ((Avatar.applyMatrix ⟨some ⟨true, idMatrix4⟩, []⟩ idMatrix4 (some 40)).2
        = idMatrix4.scale ⟨40, 40, 40⟩ ∧
      (∀ f : FaceOverlay, ∀ opts : Option ℚ,
        (FaceOverlay.applyMatrix f idMatrix4 opts).2 = idMatrix4) ∧
      ∀ i : Nat, ∀ e : ℚ, i < 12 → idMatrix4.elements[i]? = some e → e ≠ 0 →
        (40:ℚ) ≠ 1 →
        (Avatar.applyMatrix ⟨some ⟨true, idMatrix4⟩, []⟩ idMatrix4 (some 40)).2
          ≠ idMatrix4) :=
  ⟨rfl, applyMatrix_aliasing ⟨some ⟨true, idMatrix4⟩, []⟩ ⟨true, idMatrix4⟩
    idMatrix4 40 rfl⟩

/-! ## Claims about the per-frame path -/

theorem applyMatrix_meshes (a : Avatar) (m : Matrix4) (opts : Option ℚ) :
    (Avatar.applyMatrix a m opts).1.morphTargetMeshes = a.morphTargetMeshes := by
  obtain ⟨g, meshes⟩ := a
  unfold Avatar.applyMatrix
  cases g <;> rfl

theorem applyWeightsToMesh_nil (mesh : Mesh) : applyWeightsToMesh [] mesh = mesh := by
  obtain ⟨d, i⟩ := mesh
  cases d <;> cases i <;> rfl

theorem updateBlendshapes_nil (a : Avatar) : Avatar.updateBlendshapes a [] = a := by
  obtain ⟨g, meshes⟩ := a
  unfold Avatar.updateBlendshapes
  simp only [Avatar.mk.injEq, true_and]
  calc meshes.map (applyWeightsToMesh [])
      = meshes.map id := List.map_congr_left (fun m _ => applyWeightsToMesh_nil m)
    _ = meshes := List.map_id meshes

/-- C8: when the per-frame score list is empty or absent -- no blendshape
output, an empty face list, or a first face with an empty score list -- the
retargeting step of the frame is a no-op: every mesh keeps its prior
influence values (total function: no failure is raised). -/
theorem retarget_empty_noop (st : WorldState) (landmarks : FaceLandmarkerResult)
    (h : landmarks.faceBlendshapes = none ∨ landmarks.faceBlendshapes = some [] ∨
      ∃ f rest, landmarks.faceBlendshapes = some (f :: rest) ∧ f.categories = []) :
    avatarMeshes (detectFaceLandmarks st landmarks) = avatarMeshes st := by
  unfold detectFaceLandmarks
  by_cases hguard : (!st.hasFaceLandmarker || !st.hasVideo) = true
  · rw [if_pos hguard]
  · rw [if_neg hguard]
    cases htm : landmarks.facialTransformationMatrixes with
    | none => rfl
    | some tml =>
        cases tml with
        | nil => rfl
        | cons tm0 tmrest =>
            cases hav : st.avatar with
            | none => simp [avatarMeshes, hav]
            | some av0 =>
                rcases h with hb | hb | ⟨f, rest, hb, hcats⟩
                · rw [hb]
                  simp [avatarMeshes, hav, applyMatrix_meshes]
                · rw [hb]
                  simp [avatarMeshes, hav, applyMatrix_meshes]
                · rw [hb]
                  have hr : retarget (f :: rest) = some [] := by
                    simp [retarget, hcats, retargetGo]
                  simp [avatarMeshes, hav, applyMatrix_meshes, hr,
                    updateBlendshapes_nil]

/-- Witness for C8: loaded avatar, one pose matrix, absent blendshape list;
the avatar's meshes are untouched. -/
theorem retarget_empty_noop_witness :
    (lmNoBlend.faceBlendshapes = none ∨ lmNoBlend.faceBlendshapes = some [] ∨
      ∃ f rest, lmNoBlend.faceBlendshapes = some (f :: rest) ∧
        f.categories = []) ∧
    avatarMeshes (detectFaceLandmarks stW lmNoBlend) = avatarMeshes stW :=
  ⟨Or.inl rfl, retarget_empty_noop stW lmNoBlend (Or.inl rfl)⟩

/-- C9: if a frame has a non-empty blendshape list but an empty (or absent)
transformation-matrix list, `detectFaceLandmarks` changes nothing: in
particular no morph-target influence is updated that frame, because the
blendshape branch sits inside the pose branch. -/
theorem no_pose_no_weights (st : WorldState) (landmarks : FaceLandmarkerResult)
    (f : FaceBlendshapes) (rest : List FaceBlendshapes)
    (_hbs : landmarks.faceBlendshapes = some (f :: rest))
    (htm : landmarks.facialTransformationMatrixes = none ∨
      landmarks.facialTransformationMatrixes = some []) :
    detectFaceLandmarks st landmarks = st ∧
    avatarMeshes (detectFaceLandmarks st landmarks) = avatarMeshes st := by
  have hmain : detectFaceLandmarks st landmarks = st := by
    unfold detectFaceLandmarks
    by_cases hguard : (!st.hasFaceLandmarker || !st.hasVideo) = true
    · rw [if_pos hguard]
    · rw [if_neg hguard]
      rcases htm with h | h
      · rw [h]
      · rw [h]
  exact ⟨hmain, by rw [hmain]⟩

/-- Witness for C9: loaded avatar, a one-entry blendshape list, no pose
matrices; the state (and so every influence value) is unchanged. -/
theorem no_pose_no_weights_witness :
    lmNoPose.faceBlendshapes = some [⟨[⟨"jawOpen", 1⟩]⟩] ∧
    (lmNoPose.facialTransformationMatrixes = none ∨
      lmNoPose.facialTransformationMatrixes = some []) ∧
    (detectFaceLandmarks stW lmNoPose = stW ∧
      avatarMeshes (detectFaceLandmarks stW lmNoPose) = avatarMeshes stW) :=
  ⟨rfl, Or.inl rfl,
    no_pose_no_weights stW lmNoPose ⟨[⟨"jawOpen", 1⟩]⟩ [] rfl (Or.inl rfl)⟩
